import Mathlib

/-!
Verification development for the mpags-cipher program (day-6 concurrent
version).  The C++ sources embedded here are `src/mpags-cipher.cpp` (the
`main` function with its concurrent Caesar dispatch), and the interface
headers `src/MPAGSCipher/Cipher.hpp` and
`src/MPAGSCipher/ProcessCommandLine.hpp`.  Strings are modelled as
`List Char`; `std::string::substr(first, len)` becomes drop/take (with an
explicit out-of-range check where that matters); the external effects of
`main` (command-line parsing, stream creation, the cipher factory) are
abstracted into an environment record, and the parts of the repository
whose implementation files are not present (the concrete ciphers and the
factory) are modelled from the specification, as marked on each
definition.
-/

/-- CipherMode enumeration from CipherMode.hpp: direction of the transformation. -/
inductive CipherMode
  | Encrypt
  | Decrypt
deriving DecidableEq, Repr

/-- CipherType enumeration from CipherType.hpp: which cipher variant to build. -/
inductive CipherType
  | Caesar
  | Playfair
  | Vigenere
deriving DecidableEq, Repr

/-- The purely abstract Cipher base class of Cipher.hpp: a cipher is exactly
its `applyCipher` operation, a total function of the input text and the mode. -/
structure Cipher where
  applyCipher : List Char → CipherMode → List Char

/-- The InvalidKey exception of Cipher.hpp, carrying its explanatory message. -/
structure InvalidKey where
  what : String
deriving DecidableEq, Repr

/-- The ProgramSettings structure of ProcessCommandLine.hpp. -/
structure ProgramSettings where
  helpRequested : Bool
  versionRequested : Bool
  inputFile : String
  outputFile : String
  cipherKey : String
  cipherMode : CipherMode
  cipherType : CipherType

/-- The two exception classes thrown by processCommandLine
(ProcessCommandLine.hpp): MissingArgument and UnknownArgument. -/
inductive ParseError
  | missingArgument (msg : String)
  | unknownArgument (msg : String)

/- ----------------------------------------------------------------- -/
/- The concurrent Caesar dispatch of mpags-cipher.cpp, lines 126-156. -/
/- ----------------------------------------------------------------- -/

/-- numThreads from mpags-cipher.cpp line 133: the fixed worker count. -/
def numThreads : Nat := 4

/-- Start index of worker i's range, from line 139/142:
the first argument i*inputLength/numThreads passed to fn. -/
def segFirst (len i : Nat) : Nat := i * len / numThreads

/-- Length of worker i's range, from lines 138-143: inputLength/numThreads
for every worker but the last, which also absorbs inputLength%numThreads. -/
def segLen (len i : Nat) : Nat :=
  if i ≠ numThreads - 1 then len / numThreads
  else len / numThreads + len % numThreads

/-- std::string::substr(first, count) for first ≤ size():
the characters from index first up to at most first+count. -/
def substrCpp (s : List Char) (first count : Nat) : List Char :=
  (s.drop first).take count

/-- substr with the C++ out-of-range behaviour made explicit:
substr throws std::out_of_range exactly when first > size(). -/
def substrExc (s : List Char) (first count : Nat) : Except String (List Char) :=
  if first ≤ s.length then Except.ok (substrCpp s first count)
  else Except.error "out_of_range"

/-- The substrings handed to the four async workers, in index order
(lines 137-144): worker i receives inputText.substr(segFirst, segLen). -/
def dispatchSegments (input : List Char) : List (List Char) :=
  (List.range numThreads).map
    (fun i => substrCpp input (segFirst input.length i) (segLen input.length i))

/-- The worker substring extractions with the out-of-range check kept:
what each worker's substr call can observe. -/
def dispatchSegmentsExc (input : List Char) : List (Except String (List Char)) :=
  (List.range numThreads).map
    (fun i => substrExc input (segFirst input.length i) (segLen input.length i))

/-- The concurrent Caesar branch of main (lines 126-156): each worker runs
fn = applyCipher on its substring, and the results are appended to
outputText strictly in future (range-index) order. -/
def caesarDispatch (c : Cipher) (mode : CipherMode) (input : List Char) : List Char :=
  (dispatchSegments input).foldl (fun acc s => acc ++ c.applyCipher s mode) []

/-- The cipher-application stage of main, lines 126-161: the Caesar type is
dispatched over the four workers, every other type is a single direct
applyCipher call on the whole input text. -/
def processText (c : Cipher) (mode : CipherMode) (t : CipherType) (input : List Char) : List Char :=
  if t = CipherType.Caesar then caesarDispatch c mode input
  else c.applyCipher input mode

/- ----------------------------------------------------------------- -/
/- The wait_for polling loop of mpags-cipher.cpp, lines 145-155.      -/
/- ----------------------------------------------------------------- -/

/-- std::future_status values observed by elem.wait_for. -/
inductive FutureStatus
  | deferred
  | timeout
  | ready
deriving DecidableEq, Repr

/-- The do/while polling loop on one future (lines 147-153): poll j yields
statuses j; on ready the loop exits with the index of the successful poll,
on any other status (a timeout only prints "waiting...") it polls again.
The fuel argument merely bounds the modelled number of iterations; the
theorems below show the result is independent of it once it exceeds the
index of the first ready poll. -/
def waitForLoop (statuses : Nat → FutureStatus) : Nat → Nat → Option Nat
  | _, 0 => none
  | i, fuel + 1 =>
    match statuses i with
    | FutureStatus.ready => some i
    | _ => waitForLoop statuses (i + 1) fuel

/- ----------------------------------------------------------------- -/
/- The concrete ciphers and the factory, modelled from the spec.      -/
/- ----------------------------------------------------------------- -/

/-- Modelled from the spec: alphabet utility shared by the ciphers
(CaesarCipher.cpp / VigenereCipher.cpp are not under src/).  Shifts a letter
by the given amount within its own case, mod 26, and leaves every other
character unchanged. -/
def shiftChar (shift : Nat) (c : Char) : Char :=
  if 'A' ≤ c ∧ c ≤ 'Z' then Char.ofNat ('A'.toNat + (c.toNat - 'A'.toNat + shift) % 26)
  else if 'a' ≤ c ∧ c ≤ 'z' then Char.ofNat ('a'.toNat + (c.toNat - 'a'.toNat + shift) % 26)
  else c

/-- Digits of a numeral read as a natural number. -/
def digitsToNat (ds : List Char) : Nat :=
  ds.foldl (fun n c => 10 * n + (c.toNat - '0'.toNat)) 0

/-- Modelled from the spec: the Caesar key validation of CaesarCipher.cpp
(not under src/) - the key string must parse entirely as an integer
(optionally negative), otherwise the construction fails. -/
def parseIntOpt : List Char → Option Int
  | [] => none
  | '-' :: ds =>
    if !ds.isEmpty && ds.all Char.isDigit then some (-(digitsToNat ds : Int)) else none
  | ds =>
    if ds.all Char.isDigit then some (digitsToNat ds : Int) else none

/-- Modelled from the spec: CaesarCipher::applyCipher (CaesarCipher.cpp is
not under src/).  The effective shift is the key reduced mod 26, negated
first on decryption; each letter is shifted by it, preserving case. -/
def caesarApply (key : Int) (input : List Char) (mode : CipherMode) : List Char :=
  let s : Nat := ((match mode with
    | CipherMode.Encrypt => key
    | CipherMode.Decrypt => -key) % 26).toNat
  input.map (shiftChar s)

/-- Index 0-25 of a letter in the alphabet, ignoring case. -/
def letterIndex (c : Char) : Nat := (c.toUpper.toNat - 'A'.toNat) % 26

/-- Modelled from the spec: VigenereCipher::applyCipher (VigenereCipher.cpp
is not under src/).  The key letters are repeated cyclically, one per input
letter; encryption adds the aligned key index mod 26, decryption subtracts,
preserving the input letter's case. -/
def vigenereApply (ks : List Nat) (input : List Char) (mode : CipherMode) : List Char :=
  input.mapIdx (fun i c =>
    let k := ks.getD (i % ks.length) 0
    let s := match mode with
      | CipherMode.Encrypt => k % 26
      | CipherMode.Decrypt => (26 - k % 26) % 26
    shiftChar s c)

/-- Modelled from the spec: Playfair normalisation - upper-case and merge J
into I (PlayfairCipher.cpp is not under src/). -/
def toUpperIJ (c : Char) : Char :=
  let u := c.toUpper
  if u = 'J' then 'I' else u

/-- The 25-letter alphabet with J merged into I. -/
def alphabet25 : List Char := "ABCDEFGHIKLMNOPQRSTUVWXYZ".toList

/-- Append characters, skipping any already present. -/
def dedupAppend (acc : List Char) (cs : List Char) : List Char :=
  cs.foldl (fun a c => if a.contains c then a else a ++ [c]) acc

/-- Modelled from the spec: the 5x5 Playfair key square, row-major - key
letters in order with duplicates skipped and J merged into I, then the
remaining alphabet letters in order. -/
def playfairSquare (key : List Char) : List Char :=
  dedupAppend (dedupAppend [] ((key.filter Char.isAlpha).map toUpperIJ)) alphabet25

/-- Filler letter for Playfair digraph preparation: X, or Q when the letter
being doubled is X itself. -/
def pfFiller (c : Char) : Char := if c = 'X' then 'Q' else 'X'

/-- Modelled from the spec: Playfair digraph preparation on encryption - a
doubled letter is split by the filler and pairing re-starts from the second
letter; a lone final letter is completed with the filler. -/
def prepPairs : List Char → List (Char × Char)
  | [] => []
  | [c] => [(c, pfFiller c)]
  | c1 :: c2 :: rest =>
    if c1 = c2 then (c1, pfFiller c1) :: prepPairs (c2 :: rest)
    else (c1, c2) :: prepPairs rest
termination_by l => l.length

/-- Modelled from the spec: on decryption the ciphertext is consumed in
fixed pairs as received (a lone trailing letter, which a well-formed
Playfair ciphertext never has, is ignored). -/
def fixedPairs : List Char → List (Char × Char)
  | c1 :: c2 :: rest => (c1, c2) :: fixedPairs rest
  | _ => []

/-- Modelled from the spec: the Playfair substitution on one digraph, with
d = 1 on encryption and d = 4 (i.e. -1 mod 5) on decryption - same row
shifts the column, same column shifts the row, otherwise the rectangle rule
swaps the columns. -/
def pfSubPair (sq : List Char) (d : Nat) (p : Char × Char) : Char × Char :=
  let i1 := sq.indexOf p.1
  let i2 := sq.indexOf p.2
  let r1 := i1 / 5
  let c1 := i1 % 5
  let r2 := i2 / 5
  let c2 := i2 % 5
  if r1 = r2 then (sq.getD (r1 * 5 + (c1 + d) % 5) 'A', sq.getD (r2 * 5 + (c2 + d) % 5) 'A')
  else if c1 = c2 then (sq.getD ((r1 + d) % 5 * 5 + c1) 'A', sq.getD ((r2 + d) % 5 * 5 + c2) 'A')
  else (sq.getD (r1 * 5 + c2) 'A', sq.getD (r2 * 5 + c1) 'A')

/-- Modelled from the spec: PlayfairCipher::applyCipher (PlayfairCipher.cpp
is not under src/) - normalise to the 25-letter upper-case alphabet, form
digraphs (with preparation on encryption only), substitute each digraph
against the key square, and flatten. -/
def playfairApply (sq : List Char) (input : List Char) (mode : CipherMode) : List Char :=
  let text := (input.filter Char.isAlpha).map toUpperIJ
  let pairs := match mode with
    | CipherMode.Encrypt => prepPairs text
    | CipherMode.Decrypt => fixedPairs text
  let d := match mode with
    | CipherMode.Encrypt => 1
    | CipherMode.Decrypt => 4
  (pairs.map (pfSubPair sq d)).foldl (fun a p => a ++ [p.1, p.2]) []

/-- Invalid-key message of the Caesar construction. -/
def caesarKeyMsg : String := "Caesar cipher key must be an integer"

/-- Invalid-key message of the Playfair construction. -/
def playfairKeyMsg : String := "Playfair cipher key must contain at least one letter"

/-- Invalid-key message of the Vigenere construction. -/
def vigenereKeyMsg : String := "Vigenere cipher key must contain at least one letter"

/-- Modelled from the spec: cipherFactory (CipherFactory.cpp is not under
src/) - dispatches on the cipher type to the matching variant's
construction, which validates the raw key; an invalid key surfaces as the
InvalidKey condition of that construction, unchanged. -/
def cipherFactory (t : CipherType) (key : String) : Except InvalidKey (Option Cipher) :=
  match t with
  | CipherType.Caesar =>
    match parseIntOpt key.toList with
    | some k => Except.ok (some ⟨fun text mode => caesarApply k text mode⟩)
    | none => Except.error ⟨caesarKeyMsg⟩
  | CipherType.Playfair =>
    if (key.toList.filter Char.isAlpha).isEmpty then Except.error ⟨playfairKeyMsg⟩
    else Except.ok (some ⟨fun text mode => playfairApply (playfairSquare key.toList) text mode⟩)
  | CipherType.Vigenere =>
    let ks := ((key.toList.filter Char.isAlpha).map letterIndex)
    if ks.isEmpty then Except.error ⟨vigenereKeyMsg⟩
    else Except.ok (some ⟨fun text mode => vigenereApply ks text mode⟩)

/- ----------------------------------------------------------------- -/
/- The main function of mpags-cipher.cpp.                             -/
/- ----------------------------------------------------------------- -/

/-- The externals main interacts with: the outcome of processCommandLine
(its implementation is not under src/, so it is abstracted to its declared
result - settings, or a MissingArgument/UnknownArgument exception), whether
the input/output file streams can be created, the normalised input text
(the transformChar filtering is upstream of the core), and the factory
linked in. -/
structure Env where
  parseResult : Except ParseError ProgramSettings
  inputReadable : Bool
  inputText : List Char
  factory : CipherType → String → Except InvalidKey (Option Cipher)
  outputWritable : Bool

/-- What a run of main produces: the process exit code, the processed text
written to the output stream (none on every path that writes no output
text), and the error line written to std::cerr, if any. -/
structure MainResult where
  exitCode : Nat
  outputText : Option (List Char)
  errMsg : Option String
deriving DecidableEq, Repr

/-- The main function of mpags-cipher.cpp (lines 19-185): parse the command
line (exit 1 on MissingArgument/UnknownArgument), short-circuit on help or
version with exit 0, fail with exit 1 if a named input file cannot be read,
build the cipher (exit 1 on InvalidKey or a null instance), transform the
text (concurrently for Caesar), and fail with exit 1 if a named output file
cannot be written, otherwise write the text and exit 0. -/
def mpagsMain (env : Env) : MainResult :=
  match env.parseResult with
  | Except.error (ParseError.missingArgument m) =>
    { exitCode := 1, outputText := none, errMsg := some ("[error] Missing argument: " ++ m) }
  | Except.error (ParseError.unknownArgument m) =>
    { exitCode := 1, outputText := none, errMsg := some ("[error] Unknown argument: " ++ m) }
  | Except.ok settings =>
    if settings.helpRequested then { exitCode := 0, outputText := none, errMsg := none }
    else if settings.versionRequested then { exitCode := 0, outputText := none, errMsg := none }
    else if settings.inputFile != "" && !env.inputReadable then
      { exitCode := 1, outputText := none,
        errMsg := some ("[error] failed to create istream on file " ++ settings.inputFile) }
    else
      match env.factory settings.cipherType settings.cipherKey with
      | Except.error e =>
        { exitCode := 1, outputText := none,
          errMsg := some ("[error] Invalid key: " ++ e.what) }
      | Except.ok none =>
        { exitCode := 1, outputText := none,
          errMsg := some "[error] problem constructing requested cipher" }
      | Except.ok (some cipher) =>
        let out := processText cipher settings.cipherMode settings.cipherType env.inputText
        if settings.outputFile != "" && !env.outputWritable then
          { exitCode := 1, outputText := none,
            errMsg := some ("[error] failed to create ostream on file " ++ settings.outputFile) }
        else { exitCode := 0, outputText := some out, errMsg := none }

/-- The success paths of mpags-cipher as claimed: help requested, version
requested, or text processed and written (arguments parsed, input stream
created, factory yields a cipher instance, output stream created).  Written
from the claim's enumeration of paths, to be compared with the embedded
main function. -/
def successPath (env : Env) : Bool :=
  match env.parseResult with
  | Except.error _ => false
  | Except.ok s =>
    s.helpRequested || s.versionRequested ||
      (!(s.inputFile != "" && !env.inputReadable) &&
        (match env.factory s.cipherType s.cipherKey with
         | Except.ok (some _) => !(s.outputFile != "" && !env.outputWritable)
         | _ => false))

/-- A status stream whose first two polls time out and which is ready from
the third poll on. -/
def exampleStatuses : Nat → FutureStatus :=
  fun i => if i < 2 then FutureStatus.timeout else FutureStatus.ready

/-- Settings requesting the Caesar cipher with the non-numeric key abc. -/
def settingsBadKey : ProgramSettings :=
  { helpRequested := false, versionRequested := false, inputFile := "", outputFile := "",
    cipherKey := "abc", cipherMode := CipherMode.Encrypt, cipherType := CipherType.Caesar }

/-- An environment running the program on the settings with the bad key. -/
def envBadKey : Env :=
  { parseResult := Except.ok settingsBadKey, inputReadable := true,
    inputText := "HELLO".toList, factory := cipherFactory, outputWritable := true }

/-- An environment whose factory yields no instance and no exception. -/
def envNullCipher : Env :=
  { parseResult := Except.ok settingsBadKey, inputReadable := true,
    inputText := "HELLO".toList, factory := fun _ _ => Except.ok none,
    outputWritable := true }

/- ----------------------------------------------------------------- -/
/- Helper lemmas.                                                     -/
/- ----------------------------------------------------------------- -/

/-- A worker's start index never exceeds the input length, so its substr
call is in range. -/
lemma segFirst_le (len i : Nat) (h : i ≤ 4) : segFirst len i ≤ len := by
  unfold segFirst numThreads
  calc i * len / 4 ≤ 4 * len / 4 :=
        Nat.div_le_div_right (Nat.mul_le_mul_right len h)
    _ = len := by omega

/-- The polling loop exits only on a ready poll. -/
lemma waitForLoop_some_ready (statuses : Nat → FutureStatus) :
    ∀ fuel i k, waitForLoop statuses i fuel = some k → statuses k = FutureStatus.ready := by
  intro fuel
  induction fuel with
  | zero => intro i k h; simp [waitForLoop] at h
  | succ n ih =>
    intro i k h
    unfold waitForLoop at h
    cases hs : statuses i with
    | ready =>
      rw [hs] at h
      simp only [Option.some.injEq] at h
      rw [← h, hs]
    | timeout => rw [hs] at h; exact ih (i + 1) k h
    | deferred => rw [hs] at h; exact ih (i + 1) k h

/-- If some poll within the fuel bound is ready, the polling loop exits. -/
lemma waitForLoop_reaches (statuses : Nat → FutureStatus) :
    ∀ fuel i, (∃ j, i ≤ j ∧ j < i + fuel ∧ statuses j = FutureStatus.ready) →
      ∃ k, waitForLoop statuses i fuel = some k := by
  intro fuel
  induction fuel with
  | zero =>
    intro i hj
    obtain ⟨j, h1, h2, _⟩ := hj
    omega
  | succ n ih =>
    intro i hj
    obtain ⟨j, h1, h2, hjr⟩ := hj
    unfold waitForLoop
    cases hs : statuses i with
    | ready => exact ⟨i, rfl⟩
    | timeout =>
      apply ih (i + 1)
      refine ⟨j, ?_, by omega, hjr⟩
      rcases Nat.eq_or_lt_of_le h1 with he | hl
      · rw [← he, hs] at hjr; cases hjr
      · omega
    | deferred =>
      apply ih (i + 1)
      refine ⟨j, ?_, by omega, hjr⟩
      rcases Nat.eq_or_lt_of_le h1 with he | hl
      · rw [← he, hs] at hjr; cases hjr
      · omega

/- ----------------------------------------------------------------- -/
/- Claims.                                                            -/
/- ----------------------------------------------------------------- -/

/-- C1: the claim states that the concatenation of the four workers'
applyCipher outputs in range order equals the sequential applyCipher result
on the whole text.  The code violates this: for the six-character input
ABCDEF under a Caesar shift of 3, the dispatcher produces DEGHI (the
character C at index 2 belongs to no worker's range) while the sequential
result is DEFGHI. -/
theorem caesarDispatch_not_equivalent :
    caesarDispatch (Cipher.mk (caesarApply 3)) CipherMode.Encrypt "ABCDEF".toList
      = "DEGHI".toList
    ∧ caesarApply 3 "ABCDEF".toList CipherMode.Encrypt = "DEFGHI".toList
    ∧ ("DEGHI".toList : List Char) ≠ "DEFGHI".toList := by decide

/-- C2: the claim states that the four ranges concatenated in order
reconstruct the input exactly.  The code violates this: the range starts are
floor(i*len/4) while each non-final range length is floor(len/4), which
leaves gaps whenever len mod 4 is 2 or 3.  For len = 6 the concatenation of
the ranges of ABCDEF is ABDEF, dropping C. -/
theorem dispatchSegments_drop_input :
    (dispatchSegments "ABCDEF".toList).foldl (fun a b => a ++ b) [] = "ABDEF".toList
    ∧ ("ABDEF".toList : List Char) ≠ "ABCDEF".toList
    ∧ segLen 6 0 = 1 ∧ segLen 6 3 = 3 := by decide

/-- C4: the claim states that the Caesar output assembled by the concurrent
dispatcher has the same length as the input.  The code violates this: the
dispatcher output for the six-character input ABCDEF has length 5, although
a single sequential applyCipher call is length-preserving for both Caesar
and Vigenere, as the last two conjuncts evaluate. -/
theorem caesarDispatch_not_length_preserving :
    (caesarDispatch (Cipher.mk (caesarApply 3)) CipherMode.Encrypt "ABCDEF".toList).length = 5
    ∧ ("ABCDEF".toList).length = 6
    ∧ (caesarApply 3 "ABCDEF".toList CipherMode.Encrypt).length = 6
    ∧ (vigenereApply [1] "ABC".toList CipherMode.Encrypt).length = 3 := by decide

/-- C9: for every input length and every consecutive pair of ranges, the
next range's start index floor((i+1)*len/4) is at least the previous
range's end index floor(i*len/4) + floor(len/4), so the ranges never
overlap (gaps remain possible). -/
theorem seg_ranges_no_overlap (len i : Nat) (h : i + 1 < numThreads) :
    segFirst len i + segLen len i ≤ segFirst len (i + 1) := by
  have hne : i ≠ numThreads - 1 := by
    unfold numThreads at h ⊢
    omega
  unfold segFirst segLen
  rw [if_pos hne]
  unfold numThreads
  have h1 : (i * len / 4 + len / 4) * 4 ≤ i * len + len := by
    have a := Nat.div_mul_le_self (i * len) 4
    have b := Nat.div_mul_le_self len 4
    calc (i * len / 4 + len / 4) * 4 = (i * len / 4) * 4 + (len / 4) * 4 := by ring
      _ ≤ i * len + len := Nat.add_le_add a b
  have h2 : i * len + len = (i + 1) * len := by ring
  rw [Nat.le_div_iff_mul_le (by norm_num : 0 < 4)]
  rw [← h2]
  exact h1

/-- Witness for C9 at len = 6, i = 2: range 2 ends at index 4 and range 3
starts at index 4. -/
theorem seg_ranges_no_overlap_witness :
    2 + 1 < numThreads ∧ segFirst 6 2 + segLen 6 2 ≤ segFirst 6 (2 + 1) :=
  ⟨by decide, seg_ranges_no_overlap 6 2 (by decide)⟩

/-- C7: the dispatcher introduces no new failure: every worker's substring
extraction is in range (substr cannot throw, since each start index is at
most the input length), so each worker call is exactly a total applyCipher
call on a well-defined substring - applyCipher itself is total by its
interface type in this embedding. -/
theorem dispatch_workers_total (input : List Char) :
    dispatchSegmentsExc input = (dispatchSegments input).map Except.ok := by
  have hr : List.range numThreads = [0, 1, 2, 3] := by decide
  unfold dispatchSegmentsExc dispatchSegments substrExc
  rw [hr]
  simp only [List.map_cons, List.map_nil]
  rw [if_pos (segFirst_le input.length 0 (by norm_num)),
    if_pos (segFirst_le input.length 1 (by norm_num)),
    if_pos (segFirst_le input.length 2 (by norm_num)),
    if_pos (segFirst_le input.length 3 (by norm_num))]

/-- C5: the Caesar branch dispatches applyCipher over exactly numThreads = 4
worker substrings, while the Playfair and Vigenere branches are a single
direct applyCipher call on the whole input text. -/
theorem processText_branch_structure (c : Cipher) (mode : CipherMode) (input : List Char) :
    (dispatchSegments input).length = numThreads
    ∧ processText c mode CipherType.Caesar input = caesarDispatch c mode input
    ∧ processText c mode CipherType.Playfair input = c.applyCipher input mode
    ∧ processText c mode CipherType.Vigenere input = c.applyCipher input mode := by
  refine ⟨?_, rfl, rfl, rfl⟩
  simp [dispatchSegments]

/-- C6: a poll that times out never exits the wait: whenever the future
eventually reports ready, the loop (given any iteration bound beyond that
point) terminates with a ready poll, no matter how many timeout polls
preceded it; and the loop can only ever exit on a poll whose status is
ready, so a timeout is never treated as completion or failure. -/
theorem wait_polling_never_abandons (statuses : Nat → FutureStatus) (n : Nat)
    (h : statuses n = FutureStatus.ready) :
    (∀ fuel, n < fuel →
      ∃ k, waitForLoop statuses 0 fuel = some k ∧ statuses k = FutureStatus.ready)
    ∧ (∀ i fuel k, waitForLoop statuses i fuel = some k → statuses k = FutureStatus.ready) := by
  constructor
  · intro fuel hf
    obtain ⟨k, hk⟩ := waitForLoop_reaches statuses fuel 0 ⟨n, Nat.zero_le n, by omega, h⟩
    exact ⟨k, hk, waitForLoop_some_ready statuses fuel 0 k hk⟩
  · intro i fuel k hk
    exact waitForLoop_some_ready statuses fuel i k hk

/-- Witness for C6: after two timeout polls the loop exits on the ready
poll at index 2. -/
theorem wait_polling_never_abandons_witness :
    waitForLoop exampleStatuses 0 3 = some 2 ∧ exampleStatuses 2 = FutureStatus.ready :=
  ⟨by decide,
    (wait_polling_never_abandons exampleStatuses 2 (by decide)).2 0 3 2 (by decide)⟩

/-- C3: when the cipher factory raises InvalidKey, main catches it, reports
the exception's own explanation after the fixed "[error] Invalid key: "
prefix (the explanation itself unaltered), terminates with exit code 1, and
produces no output text.  The factory here is the spec-modelled
cipherFactory, which surfaces the variant construction's InvalidKey
condition unchanged. -/
theorem main_invalid_key (env : Env) (s : ProgramSettings) (msg : String)
    (hp : env.parseResult = Except.ok s)
    (hh : s.helpRequested = false) (hv : s.versionRequested = false)
    (hin : (s.inputFile != "" && !env.inputReadable) = false)
    (hfac : env.factory = cipherFactory)
    (hf : cipherFactory s.cipherType s.cipherKey = Except.error ⟨msg⟩) :
    mpagsMain env =
      { exitCode := 1, outputText := none,
        errMsg := some ("[error] Invalid key: " ++ msg) } := by
  unfold mpagsMain
  rw [hp]
  simp [hh, hv, hin, hfac, hf]

/-- Witness for C3: the non-numeric Caesar key abc makes the factory raise
InvalidKey, and main exits with code 1, no output text, and the
construction's message reported verbatim. -/
theorem main_invalid_key_witness :
    mpagsMain envBadKey =
      { exitCode := 1, outputText := none,
        errMsg := some ("[error] Invalid key: " ++ caesarKeyMsg) } :=
  main_invalid_key envBadKey settingsBadKey caesarKeyMsg rfl rfl rfl rfl rfl rfl

/-- C8: when the factory yields no cipher instance without raising
InvalidKey, main treats it as fatal: it reports the construction problem,
terminates with exit code 1, and produces no output text. -/
theorem main_null_cipher (env : Env) (s : ProgramSettings)
    (hp : env.parseResult = Except.ok s)
    (hh : s.helpRequested = false) (hv : s.versionRequested = false)
    (hin : (s.inputFile != "" && !env.inputReadable) = false)
    (hf : env.factory s.cipherType s.cipherKey = Except.ok none) :
    mpagsMain env =
      { exitCode := 1, outputText := none,
        errMsg := some "[error] problem constructing requested cipher" } := by
  unfold mpagsMain
  rw [hp]
  simp [hh, hv, hin, hf]

/-- Witness for C8: a factory returning a null instance makes main exit
with code 1 and the fatal construction message. -/
theorem main_null_cipher_witness :
    mpagsMain envNullCipher =
      { exitCode := 1, outputText := none,
        errMsg := some "[error] problem constructing requested cipher" } :=
  main_null_cipher envNullCipher settingsBadKey rfl rfl rfl rfl rfl

/-- C10: main exits with code 0 exactly on the success paths (help
requested, version requested, or text processed and written) and with code
1 on every failure path (missing argument, unknown argument, unreadable
input file, invalid key, null cipher instance, unwritable output file). -/
theorem main_exit_codes (env : Env) :
    (mpagsMain env).exitCode = if successPath env then 0 else 1 := by
  rcases env with ⟨pr, ir, it, fac, ow⟩
  cases pr with
  | error e => cases e <;> rfl
  | ok s =>
    simp only [mpagsMain, successPath]
    by_cases hh : s.helpRequested = true <;>
      by_cases hv : s.versionRequested = true <;>
        by_cases hio : (s.inputFile != "" && !ir) = true <;>
          simp only [hh, hv, hio, Bool.true_or, Bool.false_or, Bool.or_true, Bool.or_false,
            eq_self_iff_true, if_true, if_false, Bool.not_eq_true] at * <;>
        try simp [hh, hv, hio]
    all_goals
      split <;> rename_i heq <;>
        simp_all <;>
        by_cases ho : s.outputFile = "" <;> cases ow <;> simp_all
